import Mathlib

/-!
Shallow embedding of the `fastnum` signed decimal core (`src/decimal/dec.rs`).

The repository slice under verification contains the `Decimal<N>` method
bodies (`dec.rs`).  The leaf modules it delegates to (`Flags`/`Signal`,
`Context`, `cmp`, `normalize`, `scale`, `math::*`, `format`, the named
constants) are declared but their code is not part of the slice; those are
modelled from the specification document and carry doc comments starting
with `Modelled from the spec:`.

The coefficient is the external fixed-width big-integer collaborator; the
spec treats its internals as out of scope, so it is embedded as `Nat`
(arbitrary magnitude).  The scale is embedded as `Int`.
-/

namespace Fastnum

/-- Modelled from the spec: the operation-signal bit-set of the missing
`Signal`/`Flags` module — six independent sticky signals
(division-by-zero, invalid-operation, subnormal, inexact, rounded,
clamped). -/
structure Signals where
  divByZero : Bool
  invalid : Bool
  subnormal : Bool
  inexact : Bool
  rounded : Bool
  clamped : Bool
deriving DecidableEq

/-- Modelled from the spec: the empty signal set (no signal raised). -/
def Signals.empty : Signals :=
  ⟨false, false, false, false, false, false⟩

/-- Modelled from the spec: union of two signal sets (signals are sticky
and combinable by union). -/
def Signals.union (x y : Signals) : Signals :=
  ⟨x.divByZero || y.divByZero, x.invalid || y.invalid,
   x.subnormal || y.subnormal, x.inexact || y.inexact,
   x.rounded || y.rounded, x.clamped || y.clamped⟩

/-- Modelled from the spec: `x` is contained in `y` as a signal set. -/
def Signals.subset (x y : Signals) : Bool :=
  (!x.divByZero || y.divByZero) && (!x.invalid || y.invalid) &&
  (!x.subnormal || y.subnormal) && (!x.inexact || y.inexact) &&
  (!x.rounded || y.rounded) && (!x.clamped || y.clamped)

/-- Modelled from the spec: "any signal set" test on a signal set. -/
def Signals.any (x : Signals) : Bool :=
  x.divByZero || x.invalid || x.subnormal || x.inexact || x.rounded || x.clamped

/-- Modelled from the spec: the missing `Flags` registry — sign bit,
special-value category (NaN / infinite) and the signal set. -/
structure Flags where
  negSign : Bool
  nan : Bool
  infinity : Bool
  signals : Signals
deriving DecidableEq

/-- Modelled from the spec: default (empty) flags: positive sign, no
special category, no signals. -/
def Flags.empty : Flags :=
  ⟨false, false, false, Signals.empty⟩

def Flags.is_negative (f : Flags) : Bool := f.negSign

def Flags.is_nan (f : Flags) : Bool := f.nan

def Flags.is_infinity (f : Flags) : Bool := f.infinity

/-- Modelled from the spec: "Finite" = not NaN and not infinite; a flag
set is special when the NaN or the infinity category bit is set. -/
def Flags.is_special (f : Flags) : Bool := f.nan || f.infinity

def Flags.has_signals (f : Flags) : Bool := f.signals.any

def Flags.is_empty (f : Flags) : Bool :=
  decide (f = Flags.empty)

/-- Modelled from the spec: negate the sign bit. -/
def Flags.negate (f : Flags) : Flags := { f with negSign := !f.negSign }

/-- Modelled from the spec: force the non-negative sign (abs). -/
def Flags.absf (f : Flags) : Flags := { f with negSign := false }

/-- Modelled from the spec: the missing rounding-mode enumeration. -/
inductive RoundingMode where
  | Up
  | Down
  | Ceiling
  | Floor
  | HalfUp
  | HalfDown
  | HalfEven
deriving DecidableEq

/-- Modelled from the spec: the missing operation `Context` — an explicit
passed-by-value configuration of a rounding mode plus a signal-trap
policy (the set of signals whose presence causes fatal termination). -/
structure Context where
  rounding : RoundingMode
  traps : Signals
deriving DecidableEq

/-- Modelled from the spec: the named default context.  The spec shows the
default policy trapping invalid-operation and division-by-zero (the
`1 / 0` operator doctest is `should_panic`) while letting
inexact/rounded results through (`round` doctests return values). -/
def Context.default : Context :=
  ⟨RoundingMode.HalfUp, ⟨true, true, false, false, false, false⟩⟩

/-- Modelled from the spec: replace the rounding mode of a context. -/
def Context.with_rounding_mode (ctx : Context) (rm : RoundingMode) : Context :=
  { ctx with rounding := rm }

/-- A context trapping every signal. -/
def Context.trapAll : Context :=
  ⟨RoundingMode.HalfUp, ⟨true, true, true, true, true, true⟩⟩

/-- Modelled from the spec: does the trap policy of `ctx` fire on the
raised signal set `s` (some raised signal is trapped)? -/
def Context.trapsAny (ctx : Context) (s : Signals) : Bool :=
  (s.divByZero && ctx.traps.divByZero) || (s.invalid && ctx.traps.invalid) ||
  (s.subnormal && ctx.traps.subnormal) || (s.inexact && ctx.traps.inexact) ||
  (s.rounded && ctx.traps.rounded) || (s.clamped && ctx.traps.clamped)

/-- The decimal value of `dec.rs`: an unsigned coefficient (`digits`,
the external N-word big integer, embedded as `Nat`), a signed scale and
the flags. -/
structure Decimal where
  digits : Nat
  scale : Int
  flags : Flags
deriving DecidableEq

/-- The decimal categories returned by `classify`. -/
inductive Category where
  | Nan
  | Infinite
  | Zero
  | Subnormal
  | Normal
deriving DecidableEq

namespace Decimal

/-- Modelled from the spec: the named constant `ONE` from the missing
consts module — coefficient 1, scale 0, empty flags. -/
def ONE : Decimal := ⟨1, 0, Flags.empty⟩

/-- Modelled from the spec: the named constant `NAN` from the missing
consts module — the NaN category bit set. -/
def NAN : Decimal := ⟨0, 0, ⟨false, true, false, Signals.empty⟩⟩

/-- `Decimal::is_zero` (`dec.rs`): the coefficient is zero. -/
def is_zero (v : Decimal) : Bool := decide (v.digits = 0)

/-- `Decimal::is_nan` (`dec.rs`). -/
def is_nan (v : Decimal) : Bool := v.flags.is_nan

/-- `Decimal::is_infinite` (`dec.rs`). -/
def is_infinite (v : Decimal) : Bool := v.flags.is_infinity

/-- `Decimal::is_finite` (`dec.rs`). -/
def is_finite (v : Decimal) : Bool := !v.flags.is_special

/-- `Decimal::is_negative` (`dec.rs`). -/
def is_negative (v : Decimal) : Bool := v.flags.is_negative

/-- `Decimal::is_sign_negative` (`dec.rs`). -/
def is_sign_negative (v : Decimal) : Bool := v.flags.is_negative

/-- `Decimal::is_op_subnormal` (`dec.rs`): the SUBNORMAL signal is set. -/
def is_op_subnormal (v : Decimal) : Bool := v.flags.signals.subnormal

/-- `Decimal::is_subnormal` (`dec.rs`). -/
def is_subnormal (v : Decimal) : Bool := v.is_op_subnormal

/-- `Decimal::is_one` (`dec.rs`): coefficient is one, scale is zero and
the flags are entirely empty. -/
def is_one (v : Decimal) : Bool :=
  decide (v.digits = 1) && decide (v.scale = 0) && v.flags.is_empty

/-- `Decimal::neg` (`dec.rs`): invert the sign flag. -/
def negD (v : Decimal) : Decimal := { v with flags := v.flags.negate }

/-- `Decimal::abs` (`dec.rs`): force the non-negative sign flag. -/
def absD (v : Decimal) : Decimal := { v with flags := v.flags.absf }

/-- `Decimal::classify` (`dec.rs`): NaN, then Infinite, then Zero
(coefficient 0), then Subnormal (SUBNORMAL signal), else Normal. -/
def classify (v : Decimal) : Category :=
  if v.flags.is_nan then Category.Nan
  else if v.flags.is_infinity then Category.Infinite
  else if v.digits = 0 then Category.Zero
  else if v.is_subnormal then Category.Subnormal
  else Category.Normal

/-- `Decimal::signum` (`dec.rs`): `NAN` for NaN, `-ONE` for negative sign,
`ONE` otherwise. -/
def signum (v : Decimal) : Decimal :=
  if v.is_nan then NAN
  else if v.is_negative then ONE.negD
  else ONE

/-- `Decimal::ok` (`dec.rs`): `none` when the flags are special or carry
any signal, otherwise `some` of the value itself. -/
def ok (v : Decimal) : Option Decimal :=
  if v.flags.is_special || v.flags.has_signals then none else some v

/-- Magnitude comparison of the two aligned coefficients (the external
big-integer collaborator's comparison). -/
def natCmp (x y : Nat) : Ordering :=
  if x < y then Ordering.lt else if x = y then Ordering.eq else Ordering.gt

/-- Modelled from the spec: the comparator of the missing `cmp` module.
Total order: NaN sorts above everything (NaN vs NaN is Equal — the spec
leaves the convention open but demands totality); infinities order by
their sign only; two zero coefficients are Equal regardless of sign and
scale; otherwise negative sorts below positive, and for equal signs the
coefficient of the operand with the smaller scale is multiplied by ten
to the scale difference so both carry the same fractional-digit count,
the magnitudes are compared and the outcome is flipped when both
operands are negative. -/
def cmp (a b : Decimal) : Ordering :=
  if a.flags.is_nan && b.flags.is_nan then Ordering.eq
  else if a.flags.is_nan then Ordering.gt
  else if b.flags.is_nan then Ordering.lt
  else if a.flags.is_infinity && b.flags.is_infinity then
    (if a.flags.is_negative == b.flags.is_negative then Ordering.eq
     else if a.flags.is_negative then Ordering.lt else Ordering.gt)
  else if a.flags.is_infinity then
    (if a.flags.is_negative then Ordering.lt else Ordering.gt)
  else if b.flags.is_infinity then
    (if b.flags.is_negative then Ordering.gt else Ordering.lt)
  else if a.is_zero && b.is_zero then Ordering.eq
  else if a.flags.is_negative != b.flags.is_negative then
    (if a.flags.is_negative then Ordering.lt else Ordering.gt)
  else
    let m := max a.scale b.scale
    let ma := a.digits * 10 ^ (m - a.scale).toNat
    let mb := b.digits * 10 ^ (m - b.scale).toNat
    let o := natCmp ma mb
    if a.flags.is_negative then o.swap else o

/-- `Decimal::le` (`dec.rs`): `cmp` is Less or Equal. -/
def le (a b : Decimal) : Bool :=
  match cmp a b with
  | Ordering.lt => true
  | Ordering.eq => true
  | Ordering.gt => false

/-- `Decimal::max` (`dec.rs`): the second argument when `cmp` is Less or
Equal, the first otherwise. -/
def maxD (a b : Decimal) : Decimal :=
  match cmp a b with
  | Ordering.lt => b
  | Ordering.eq => b
  | Ordering.gt => a

/-- `Decimal::min` (`dec.rs`): the first argument when `cmp` is Less or
Equal, the second otherwise. -/
def minD (a b : Decimal) : Decimal :=
  match cmp a b with
  | Ordering.lt => a
  | Ordering.eq => a
  | Ordering.gt => b

/-- `Decimal::clamp` (`dec.rs`): asserts `min.le(&max)` (fatal when it
fails, embedded as `none`), then `min` when `cmp self min` is Less,
`max` when `cmp self max` is Greater, else `self`. -/
def clamp (v mn mx : Decimal) : Option Decimal :=
  if mn.le mx then
    some (if cmp v mn = Ordering.lt then mn
          else if cmp v mx = Ordering.gt then mx
          else v)
  else none

/-- `Decimal::unwrap_signals` (`dec.rs`): under `cfg(debug_assertions)`
(the `dbg` parameter) the context's trap policy inspects the raised
signals — fatal termination (`none`) when a trapped signal is present —
and the value is returned unchanged; without debug assertions the value
is returned unconditionally. -/
def unwrapSignals (dbg : Bool) (ctx : Context) (v : Decimal) : Option Decimal :=
  if dbg && ctx.trapsAny v.flags.signals then none else some v

/-- Modelled from the spec: the trailing-zero-stripping loop of the
missing `normalize` module, fuelled for structural recursion — while
the coefficient is nonzero and divisible by ten, divide it by ten and
decrement the scale. -/
def stripZerosAux : Nat → Nat → Int → Nat × Int
  | 0, d, s => (d, s)
  | fuel + 1, d, s =>
      if d ≠ 0 ∧ d % 10 = 0 then stripZerosAux fuel (d / 10) (s - 1)
      else (d, s)

/-- Modelled from the spec: the trailing-zero-stripping loop of the
missing `normalize` module; the coefficient itself bounds the number of
strip steps, so it serves as fuel. -/
def stripZeros (d : Nat) (s : Int) : Nat × Int :=
  stripZerosAux d d s

/-- Modelled from the spec: `normalize::normalize` — zero, NaN and
infinite values pass through unchanged, otherwise significant trailing
zeros migrate from the coefficient into the scale. -/
def normalize (v : Decimal) : Decimal :=
  if v.is_nan || v.is_infinite || v.is_zero then v
  else
    let p := stripZeros v.digits v.scale
    ⟨p.1, p.2, v.flags⟩

/-- `Decimal::normalized` (`dec.rs`): `normalize::normalize(self)`
followed by `unwrap_signals(ctx)`. -/
def normalized (dbg : Bool) (v : Decimal) (ctx : Context) : Option Decimal :=
  unwrapSignals dbg ctx (normalize v)

/-- Modelled from the spec: should discarding remainder `r` (with divisor
`den` and truncated quotient `q`) round the magnitude up one unit under
the given mode and sign?  Textbook definitions: Up away from zero, Down
toward zero, Ceiling toward plus infinity, Floor toward minus infinity,
and the three half modes with HalfEven breaking exact ties to even. -/
def roundIncr (rm : RoundingMode) (negSign : Bool) (q r den : Nat) : Bool :=
  match rm with
  | RoundingMode.Up => decide (r ≠ 0)
  | RoundingMode.Down => false
  | RoundingMode.Ceiling => decide (r ≠ 0) && !negSign
  | RoundingMode.Floor => decide (r ≠ 0) && negSign
  | RoundingMode.HalfUp => decide (den ≤ 2 * r)
  | RoundingMode.HalfDown => decide (den < 2 * r)
  | RoundingMode.HalfEven =>
      decide (den < 2 * r) || (decide (den = 2 * r) && decide (q % 2 = 1))

/-- Modelled from the spec: apply a rounding mode to a truncated
quotient. -/
def applyRound (rm : RoundingMode) (negSign : Bool) (q r den : Nat) : Nat :=
  if roundIncr rm negSign q r den then q + 1 else q

/-- Modelled from the spec: the missing `scale::with_scale` rescaler —
refining multiplies the coefficient by the needed power of ten exactly;
coarsening divides by it under the context's rounding mode, raising
ROUNDED whenever digits are discarded and additionally INEXACT when the
discarded digits were nonzero. -/
def withScaleCore (v : Decimal) (ns : Int) (ctx : Context) : Decimal :=
  if v.flags.is_nan || v.flags.is_infinity then v
  else if ns = v.scale then v
  else if v.scale < ns then ⟨v.digits * 10 ^ (ns - v.scale).toNat, ns, v.flags⟩
  else
    let p := 10 ^ (v.scale - ns).toNat
    let q := v.digits / p
    let r := v.digits % p
    let q2 := applyRound ctx.rounding v.flags.is_negative q r p
    let sig : Signals := ⟨false, false, false, decide (r ≠ 0), true, false⟩
    ⟨q2, ns, { v.flags with signals := v.flags.signals.union sig }⟩

/-- `Decimal::with_scale` (`dec.rs`): `scale::with_scale(self, new_scale,
ctx)` followed by `unwrap_signals(ctx)`. -/
def with_scale (dbg : Bool) (v : Decimal) (ns : Int) (ctx : Context) : Option Decimal :=
  unwrapSignals dbg ctx (withScaleCore v ns ctx)

/-- `Decimal::round` (`dec.rs`): `self.with_scale(digits,
Context::default().with_rounding_mode(rounding_mode))`. -/
def round (dbg : Bool) (v : Decimal) (digits : Int) (rm : RoundingMode) : Option Decimal :=
  with_scale dbg v digits (Context.default.with_rounding_mode rm)

/-- Modelled from the spec: every arithmetic method composes the
accumulated signals of both operands with the signals newly raised by
the operation kernel. -/
def composeSignals (a b r : Decimal) : Decimal :=
  { r with flags :=
      { r.flags with signals := (a.flags.signals.union b.flags.signals).union r.flags.signals } }

/-- Modelled from the spec: a NaN result carrying the newly raised
INVALID signal. -/
def nanInvalid : Decimal :=
  ⟨0, 0, ⟨false, true, false, ⟨false, true, false, false, false, false⟩⟩⟩

/-- Modelled from the spec: a signed infinity result. -/
def infD (negSign : Bool) : Decimal :=
  ⟨0, 0, ⟨negSign, false, true, Signals.empty⟩⟩

/-- Modelled from the spec: the signed integer value of a finite operand
once its coefficient is aligned up to the common scale `m`. -/
def alignedVal (m : Int) (v : Decimal) : Int :=
  (if v.flags.is_negative then -1 else 1) * (v.digits * 10 ^ (m - v.scale).toNat : Nat)

/-- Modelled from the spec: the missing `math::add` kernel (newly raised
signals only).  NaN operand gives NaN with INVALID; a finite plus an
infinity is that infinity; equal-sign infinities give that infinity and
opposite-sign infinities NaN with INVALID; finite operands are aligned
to the larger scale and summed with sign handling. -/
def addKernel (a b : Decimal) : Decimal :=
  if a.flags.is_nan || b.flags.is_nan then nanInvalid
  else if a.flags.is_infinity && b.flags.is_infinity then
    (if a.flags.is_negative == b.flags.is_negative then infD a.flags.is_negative
     else nanInvalid)
  else if a.flags.is_infinity then infD a.flags.is_negative
  else if b.flags.is_infinity then infD b.flags.is_negative
  else
    let m := max a.scale b.scale
    let s := alignedVal m a + alignedVal m b
    ⟨s.natAbs, m, ⟨decide (s < 0), false, false, Signals.empty⟩⟩

/-- `Decimal::add` composition point (`dec.rs` line 765):
`math::add::add(self, rhs, ctx)` then `unwrap_signals(ctx)`; the kernel
is modelled from the spec and folds both operands' signals. -/
def addC (a b : Decimal) (ctx : Context) : Decimal :=
  composeSignals a b (addKernel a b)

def add (dbg : Bool) (a b : Decimal) (ctx : Context) : Option Decimal :=
  unwrapSignals dbg ctx (addC a b ctx)

/-- Modelled from the spec: the missing `math::sub` kernel — addition of
the sign-negated right operand (the four sign-combination cases of
signed integer addition). -/
def subC (a b : Decimal) (ctx : Context) : Decimal :=
  composeSignals a b (addKernel a b.negD)

def sub (dbg : Bool) (a b : Decimal) (ctx : Context) : Option Decimal :=
  unwrapSignals dbg ctx (subC a b ctx)

/-- Modelled from the spec: the missing `math::mul` kernel — coefficient
product, scale sum, XOR sign; zero times infinity is NaN with INVALID,
any other infinity operand gives the signed infinity; NaN gives NaN
with INVALID. -/
def mulKernel (a b : Decimal) : Decimal :=
  let sgn := a.flags.is_negative != b.flags.is_negative
  if a.flags.is_nan || b.flags.is_nan then nanInvalid
  else if a.flags.is_infinity || b.flags.is_infinity then
    (if (a.flags.is_infinity && !b.flags.is_infinity && b.digits = 0)
        || (b.flags.is_infinity && !a.flags.is_infinity && a.digits = 0) then nanInvalid
     else infD sgn)
  else ⟨a.digits * b.digits, a.scale + b.scale, ⟨sgn, false, false, Signals.empty⟩⟩

def mulC (a b : Decimal) (ctx : Context) : Decimal :=
  composeSignals a b (mulKernel a b)

def mul (dbg : Bool) (a b : Decimal) (ctx : Context) : Option Decimal :=
  unwrapSignals dbg ctx (mulC a b ctx)

/-- Modelled from the spec: the bounded working precision (in extra
quotient digits) the division algorithm carries. -/
def workPrec : Nat := 32

/-- Modelled from the spec: the missing `math::div` kernel — a zero
divisor with a nonzero dividend gives the signed infinity with
DIV_BY_ZERO, zero over zero NaN with INVALID; otherwise long division
to the bounded working precision with the context's rounding mode
applied to the final digit, raising INEXACT and ROUNDED when the true
quotient is not exactly representable; result scale is the scale
difference adjusted by the working precision; XOR sign. -/
def divKernel (a b : Decimal) (ctx : Context) : Decimal :=
  let sgn := a.flags.is_negative != b.flags.is_negative
  if a.flags.is_nan || b.flags.is_nan then nanInvalid
  else if a.flags.is_infinity then
    (if b.flags.is_infinity then nanInvalid else infD sgn)
  else if b.flags.is_infinity then ⟨0, 0, ⟨sgn, false, false, Signals.empty⟩⟩
  else if b.digits = 0 then
    (if a.digits = 0 then nanInvalid
     else ⟨0, 0, ⟨sgn, false, true, ⟨true, false, false, false, false, false⟩⟩⟩)
  else if a.digits = 0 then ⟨0, a.scale - b.scale, ⟨sgn, false, false, Signals.empty⟩⟩
  else
    let num := a.digits * 10 ^ workPrec
    let q := num / b.digits
    let r := num % b.digits
    let q2 := applyRound ctx.rounding sgn q r b.digits
    let sig : Signals :=
      if r = 0 then Signals.empty else ⟨false, false, false, true, true, false⟩
    ⟨q2, a.scale - b.scale + workPrec, ⟨sgn, false, false, sig⟩⟩

def divC (a b : Decimal) (ctx : Context) : Decimal :=
  composeSignals a b (divKernel a b ctx)

def div (dbg : Bool) (a b : Decimal) (ctx : Context) : Option Decimal :=
  unwrapSignals dbg ctx (divC a b ctx)

/-- Modelled from the spec: the missing `math::rem` kernel — truncating
remainder whose sign follows the dividend; a zero divisor is INVALID
(NaN result); an infinite dividend is INVALID, a finite dividend with
an infinite divisor is returned unchanged. -/
def remKernel (a b : Decimal) : Decimal :=
  if a.flags.is_nan || b.flags.is_nan then nanInvalid
  else if a.flags.is_infinity then nanInvalid
  else if b.flags.is_infinity then
    ⟨a.digits, a.scale, ⟨a.flags.is_negative, false, false, Signals.empty⟩⟩
  else if b.digits = 0 then nanInvalid
  else
    let m := max a.scale b.scale
    let ma := a.digits * 10 ^ (m - a.scale).toNat
    let mb := b.digits * 10 ^ (m - b.scale).toNat
    ⟨ma % mb, m, ⟨a.flags.is_negative, false, false, Signals.empty⟩⟩

def remC (a b : Decimal) (ctx : Context) : Decimal :=
  composeSignals a b (remKernel a b)

def rem (dbg : Bool) (a b : Decimal) (ctx : Context) : Option Decimal :=
  unwrapSignals dbg ctx (remC a b ctx)

/-- Modelled from the spec: the finite nonzero scientific-format tail of
the missing `format` module — one digit before the point, the rest
after it, exponent `digit count - 1 - scale` with no plus sign and no
leading zeros. -/
def formatSci (ds : String) (scale : Int) : String :=
  let e : Int := (ds.length : Int) - 1 - scale
  let head := ds.take 1
  let tail := ds.drop 1
  (if tail.isEmpty then head else head ++ "." ++ tail) ++ "e" ++ toString e

/-- Modelled from the spec: the finite nonzero engineering-format tail of
the missing `format` module — exponent forced down to a multiple of
three, one to three digits before the point. -/
def formatEng (ds : String) (scale : Int) : String :=
  let e : Int := (ds.length : Int) - 1 - scale
  let k : Nat := (e % 3).toNat
  let e2 := e - k
  let lead := k + 1
  let padded := if ds.length < lead then ds.pushn '0' (lead - ds.length) else ds
  let head := padded.take lead
  let tail := padded.drop lead
  (if tail.isEmpty then head else head ++ "." ++ tail) ++ "e" ++ toString e2

/-- `Decimal::write_scientific_notation` (`dec.rs`): `NaN` first (before
the sign), then the `-` sign prefix, then `Inf`, then `0e0` for a zero
coefficient, else the formatted coefficient digits and scale. -/
def toScientificString (v : Decimal) : String :=
  if v.is_nan then "NaN"
  else
    (if v.is_sign_negative then "-" else "") ++
      (if v.is_infinite then "Inf"
       else if v.is_zero then "0e0"
       else formatSci (Nat.repr v.digits) v.scale)

/-- `Decimal::write_engineering_notation` (`dec.rs`): same special-value
handling as the scientific writer, engineering tail otherwise. -/
def toEngineeringString (v : Decimal) : String :=
  if v.is_nan then "NaN"
  else
    (if v.is_sign_negative then "-" else "") ++
      (if v.is_infinite then "Inf"
       else if v.is_zero then "0e0"
       else formatEng (Nat.repr v.digits) v.scale)

end Decimal

open Decimal

/-- C2: `ok()` returns `some` of the value exactly when no special-value
flag (neither NaN nor infinite) and no operation signal is set, and
`none` otherwise. -/
theorem c2_ok_projection (v : Decimal) :
    (Decimal.ok v = some v ↔
      (v.flags.nan = false ∧ v.flags.infinity = false ∧ v.flags.has_signals = false))
    ∧ (Decimal.ok v = none ↔
      ¬(v.flags.nan = false ∧ v.flags.infinity = false ∧ v.flags.has_signals = false)) := by
  cases hn : v.flags.nan <;> cases hi : v.flags.infinity <;>
    cases hs : v.flags.signals.any <;>
      simp [Decimal.ok, Flags.is_special, Flags.is_nan, Flags.is_infinity,
        Flags.has_signals, hn, hi, hs]

/-- C3: `classify` decides the category by the priority order NaN,
then Infinite, then Zero (coefficient 0), then Subnormal (SUBNORMAL
signal set), then Normal. -/
theorem c3_classify_priority (v : Decimal) :
    (v.flags.nan = true → Decimal.classify v = Category.Nan)
    ∧ (v.flags.nan = false → v.flags.infinity = true →
        Decimal.classify v = Category.Infinite)
    ∧ (v.flags.nan = false → v.flags.infinity = false → v.digits = 0 →
        Decimal.classify v = Category.Zero)
    ∧ (v.flags.nan = false → v.flags.infinity = false → v.digits ≠ 0 →
        v.flags.signals.subnormal = true → Decimal.classify v = Category.Subnormal)
    ∧ (v.flags.nan = false → v.flags.infinity = false → v.digits ≠ 0 →
        v.flags.signals.subnormal = false → Decimal.classify v = Category.Normal) := by
  refine ⟨?_, ?_, ?_, ?_, ?_⟩ <;> intros <;>
    simp [Decimal.classify, Flags.is_nan, Flags.is_infinity, Decimal.is_subnormal,
      Decimal.is_op_subnormal, *]

/-- Witness for C3 at concrete inputs of every category. -/
theorem c3_classify_priority_witness :
    Decimal.classify Decimal.NAN = Category.Nan
    ∧ Decimal.classify (Decimal.infD false) = Category.Infinite
    ∧ Decimal.classify ⟨0, 3, Flags.empty⟩ = Category.Zero
    ∧ Decimal.classify ⟨7, 0, ⟨false, false, false, ⟨false, false, true, false, false, false⟩⟩⟩
        = Category.Subnormal
    ∧ Decimal.classify Decimal.ONE = Category.Normal := by
  refine ⟨(c3_classify_priority Decimal.NAN).1 rfl,
    (c3_classify_priority (Decimal.infD false)).2.1 rfl rfl,
    (c3_classify_priority ⟨0, 3, Flags.empty⟩).2.2.1 rfl rfl rfl,
    (c3_classify_priority _).2.2.2.1 rfl rfl (by decide) rfl,
    (c3_classify_priority Decimal.ONE).2.2.2.2 rfl rfl (by decide) rfl⟩

/-- C4: `max` returns the second argument when `cmp` is Less or Equal and
the first otherwise; `min` returns the first argument when `cmp` is
Less or Equal and the second otherwise. -/
theorem c4_max_min_tie_break (a b : Decimal) :
    ((cmp a b = Ordering.lt ∨ cmp a b = Ordering.eq) →
      maxD a b = b ∧ minD a b = a)
    ∧ (cmp a b = Ordering.gt → maxD a b = a ∧ minD a b = b) := by
  constructor
  · rintro (h | h) <;> simp [maxD, minD, h]
  · intro h
    simp [maxD, minD, h]

/-- Witness for C4: a strict pair and a tie of two distinct zero
representations, where `max` picks the second and `min` the first. -/
theorem c4_max_min_tie_break_witness :
    (maxD Decimal.ONE ⟨2, 0, Flags.empty⟩ = ⟨2, 0, Flags.empty⟩
      ∧ minD Decimal.ONE ⟨2, 0, Flags.empty⟩ = Decimal.ONE)
    ∧ (maxD ⟨0, 1, Flags.empty⟩ ⟨0, 5, Flags.empty⟩ = ⟨0, 5, Flags.empty⟩
      ∧ minD ⟨0, 1, Flags.empty⟩ ⟨0, 5, Flags.empty⟩ = ⟨0, 1, Flags.empty⟩) :=
  ⟨(c4_max_min_tie_break Decimal.ONE ⟨2, 0, Flags.empty⟩).1 (Or.inl (by decide)),
   (c4_max_min_tie_break ⟨0, 1, Flags.empty⟩ ⟨0, 5, Flags.empty⟩).1 (Or.inr (by decide))⟩

/-- C5: under the precondition `min <= max`, `clamp` returns `min` when
`cmp self min` is Less, `max` when `cmp self max` is Greater and `self`
otherwise; when `min > max` the call fails the assertion fatally before
producing a value. -/
theorem c5_clamp_contract (v mn mx : Decimal) :
    (Decimal.le mn mx = true →
      clamp v mn mx = some (if cmp v mn = Ordering.lt then mn
        else if cmp v mx = Ordering.gt then mx else v))
    ∧ (Decimal.le mn mx = false → clamp v mn mx = none) := by
  constructor <;> intro h <;> simp [clamp, h]

/-- Witness for C5: a clamp inside an ordered interval, and the fatal
case of an inverted interval. -/
theorem c5_clamp_contract_witness :
    clamp ⟨5, 0, Flags.empty⟩ Decimal.ONE ⟨9, 0, Flags.empty⟩ = some ⟨5, 0, Flags.empty⟩
    ∧ clamp Decimal.ONE ⟨9, 0, Flags.empty⟩ Decimal.ONE = none := by
  constructor
  · have h := (c5_clamp_contract ⟨5, 0, Flags.empty⟩ Decimal.ONE ⟨9, 0, Flags.empty⟩).1
      (by decide)
    rw [h]
    decide
  · exact (c5_clamp_contract Decimal.ONE ⟨9, 0, Flags.empty⟩ Decimal.ONE).2 (by decide)

/-- C6: `is_one` holds exactly when the coefficient is 1, the scale is 0
and the flags are entirely empty; a value only numerically equal to one
(coefficient 10, scale 1) is rejected. -/
theorem c6_is_one_strict (v : Decimal) :
    (Decimal.is_one v = true ↔ (v.digits = 1 ∧ v.scale = 0 ∧ v.flags = Flags.empty))
    ∧ Decimal.is_one ⟨10, 1, Flags.empty⟩ = false := by
  constructor
  · simp [Decimal.is_one, Flags.is_empty, and_assoc]
  · decide

/-- C10: `signum` maps NaN to the `NAN` constant and any non-NaN value to
`ONE` or its negation according to the sign flag alone (so both signed
zeros get a nonzero signum, of coefficient 1). -/
theorem c10_signum_sign_only (v : Decimal) :
    (v.flags.nan = true → signum v = Decimal.NAN)
    ∧ (v.flags.nan = false →
        signum v = (if v.flags.negSign then Decimal.ONE.negD else Decimal.ONE)
        ∧ (signum v).digits = 1)
    ∧ signum ⟨0, 0, Flags.empty⟩ = Decimal.ONE
    ∧ signum ⟨0, 0, ⟨true, false, false, Signals.empty⟩⟩ = Decimal.ONE.negD := by
  refine ⟨?_, ?_, by decide, by decide⟩
  · intro h
    simp [signum, Decimal.is_nan, Flags.is_nan, h]
  · intro h
    cases hneg : v.flags.negSign <;>
      simp [signum, Decimal.is_nan, Decimal.is_negative, Flags.is_nan,
        Flags.is_negative, h, hneg, Decimal.ONE, Decimal.negD, Flags.negate, Flags.empty]

/-- Witness for C10 at NaN and at one. -/
theorem c10_signum_sign_only_witness :
    signum Decimal.NAN = Decimal.NAN ∧ signum Decimal.ONE = Decimal.ONE := by
  constructor
  · exact (c10_signum_sign_only Decimal.NAN).1 rfl
  · have h := ((c10_signum_sign_only Decimal.ONE).2.1 rfl).1
    rw [h]
    decide

/-- C9: both writers render NaN as `NaN` with no sign prefix, infinities
as `Inf` / `-Inf`, and any remaining value with coefficient 0 as `0e0`
prefixed with `-` exactly when the sign flag is negative. -/
theorem c9_special_value_rendering (v : Decimal) :
    (v.flags.nan = true →
      toScientificString v = "NaN" ∧ toEngineeringString v = "NaN")
    ∧ (v.flags.nan = false → v.flags.infinity = true →
      toScientificString v = (if v.flags.negSign then "-Inf" else "Inf")
      ∧ toEngineeringString v = (if v.flags.negSign then "-Inf" else "Inf"))
    ∧ (v.flags.nan = false → v.flags.infinity = false → v.digits = 0 →
      toScientificString v = (if v.flags.negSign then "-0e0" else "0e0")
      ∧ toEngineeringString v = (if v.flags.negSign then "-0e0" else "0e0")) := by
  refine ⟨?_, ?_, ?_⟩ <;> intros <;> cases hneg : v.flags.negSign <;>
    simp [toScientificString, toEngineeringString, Decimal.is_nan,
      Decimal.is_sign_negative, Decimal.is_infinite, Decimal.is_zero,
      Flags.is_nan, Flags.is_infinity, Flags.is_negative, hneg, *]

/-- Witness for C9 at a NaN, both infinities and a negative zero. -/
theorem c9_special_value_rendering_witness :
    toScientificString Decimal.NAN = "NaN"
    ∧ toEngineeringString (Decimal.infD false) = "Inf"
    ∧ toScientificString (Decimal.infD true) = "-Inf"
    ∧ toEngineeringString ⟨0, 7, ⟨true, false, false, Signals.empty⟩⟩ = "-0e0" := by
  refine ⟨((c9_special_value_rendering Decimal.NAN).1 rfl).1, ?_, ?_, ?_⟩
  · have h := ((c9_special_value_rendering (Decimal.infD false)).2.1 rfl rfl).2
    rw [h]
    decide
  · have h := ((c9_special_value_rendering (Decimal.infD true)).2.1 rfl rfl).1
    rw [h]
    decide
  · have h := ((c9_special_value_rendering
      ⟨0, 7, ⟨true, false, false, Signals.empty⟩⟩).2.2 rfl rfl rfl).2
    rw [h]
    decide

/-- C7: `round(digits, mode)` is exactly `with_scale(digits,
Context::default().with_rounding_mode(mode))`, in both build modes; the
doc-test values confirm the shared rescaler on 129.41675. -/
theorem c7_round_is_with_scale :
    (∀ (dbg : Bool) (v : Decimal) (d : Int) (rm : RoundingMode),
      round dbg v d rm = with_scale dbg v d (Context.default.with_rounding_mode rm))
    ∧ round false ⟨12941675, 5, Flags.empty⟩ 2 RoundingMode.Up
        = some ⟨12942, 2, ⟨false, false, false, ⟨false, false, false, true, true, false⟩⟩⟩
    ∧ round false ⟨12941675, 5, Flags.empty⟩ (-1) RoundingMode.Down
        = some ⟨12, -1, ⟨false, false, false, ⟨false, false, false, true, true, false⟩⟩⟩
    ∧ round false ⟨12941675, 5, Flags.empty⟩ 4 RoundingMode.HalfEven
        = some ⟨1294168, 4, ⟨false, false, false, ⟨false, false, false, true, true, false⟩⟩⟩ :=
  ⟨fun _ _ _ _ => rfl, by decide, by decide, by decide⟩

/-- Each Bool of a signal set survives the left side of a union chain. -/
theorem bool_or_absorb_left (p q r : Bool) : (!p || ((p || q) || r)) = true := by
  cases p <;> simp

/-- Each Bool of a signal set survives the middle of a union chain. -/
theorem bool_or_absorb_mid (p q r : Bool) : (!q || ((p || q) || r)) = true := by
  cases q <;> cases p <;> simp

/-- Both operands' signal sets are contained in a composed result. -/
theorem composeSignals_keeps_operands (a b r : Decimal) :
    Signals.subset a.flags.signals (composeSignals a b r).flags.signals = true
    ∧ Signals.subset b.flags.signals (composeSignals a b r).flags.signals = true := by
  constructor <;>
    simp [composeSignals, Signals.subset, Signals.union,
      bool_or_absorb_left, bool_or_absorb_mid]

/-- C1 counterexample: the claim as stated is false in optimized builds.
With every signal trapped by the context and the INVALID signal newly
raised by `NaN + 1`, the add method still returns a value — no fatal
termination happens, because `unwrap_signals` only traps under
`cfg(debug_assertions)`. -/
theorem c1_trap_only_in_debug_counterexample :
    Context.trapAll.traps.invalid = true
    ∧ (addC Decimal.NAN Decimal.ONE Context.trapAll).flags.signals.invalid = true
    ∧ add false Decimal.NAN Decimal.ONE Context.trapAll
        = some (addC Decimal.NAN Decimal.ONE Context.trapAll) := by
  decide

/-- C1 amended: every arithmetic method (add, sub, mul, div, rem) returns
the composition of both operands' accumulated signals with the newly
raised ones, and routes the result through `unwrap_signals` exactly
once; with debug assertions enabled that single step is fatal exactly
when a raised signal is trapped, while in optimized builds the value is
returned unconditionally. -/
theorem c1_signal_composition_and_trap (dbg : Bool) (a b : Decimal) (ctx : Context) :
    (Signals.subset a.flags.signals (addC a b ctx).flags.signals = true
      ∧ Signals.subset b.flags.signals (addC a b ctx).flags.signals = true
      ∧ add dbg a b ctx = unwrapSignals dbg ctx (addC a b ctx)
      ∧ add true a b ctx = (if ctx.trapsAny (addC a b ctx).flags.signals then none
          else some (addC a b ctx))
      ∧ add false a b ctx = some (addC a b ctx))
    ∧ (Signals.subset a.flags.signals (subC a b ctx).flags.signals = true
      ∧ Signals.subset b.flags.signals (subC a b ctx).flags.signals = true
      ∧ sub dbg a b ctx = unwrapSignals dbg ctx (subC a b ctx)
      ∧ sub true a b ctx = (if ctx.trapsAny (subC a b ctx).flags.signals then none
          else some (subC a b ctx))
      ∧ sub false a b ctx = some (subC a b ctx))
    ∧ (Signals.subset a.flags.signals (mulC a b ctx).flags.signals = true
      ∧ Signals.subset b.flags.signals (mulC a b ctx).flags.signals = true
      ∧ mul dbg a b ctx = unwrapSignals dbg ctx (mulC a b ctx)
      ∧ mul true a b ctx = (if ctx.trapsAny (mulC a b ctx).flags.signals then none
          else some (mulC a b ctx))
      ∧ mul false a b ctx = some (mulC a b ctx))
    ∧ (Signals.subset a.flags.signals (divC a b ctx).flags.signals = true
      ∧ Signals.subset b.flags.signals (divC a b ctx).flags.signals = true
      ∧ div dbg a b ctx = unwrapSignals dbg ctx (divC a b ctx)
      ∧ div true a b ctx = (if ctx.trapsAny (divC a b ctx).flags.signals then none
          else some (divC a b ctx))
      ∧ div false a b ctx = some (divC a b ctx))
    ∧ (Signals.subset a.flags.signals (remC a b ctx).flags.signals = true
      ∧ Signals.subset b.flags.signals (remC a b ctx).flags.signals = true
      ∧ rem dbg a b ctx = unwrapSignals dbg ctx (remC a b ctx)
      ∧ rem true a b ctx = (if ctx.trapsAny (remC a b ctx).flags.signals then none
          else some (remC a b ctx))
      ∧ rem false a b ctx = some (remC a b ctx)) := by
  refine ⟨⟨(composeSignals_keeps_operands _ _ _).1, (composeSignals_keeps_operands _ _ _).2,
      rfl, ?_, ?_⟩,
    ⟨(composeSignals_keeps_operands _ _ _).1, (composeSignals_keeps_operands _ _ _).2,
      rfl, ?_, ?_⟩,
    ⟨(composeSignals_keeps_operands _ _ _).1, (composeSignals_keeps_operands _ _ _).2,
      rfl, ?_, ?_⟩,
    ⟨(composeSignals_keeps_operands _ _ _).1, (composeSignals_keeps_operands _ _ _).2,
      rfl, ?_, ?_⟩,
    ⟨(composeSignals_keeps_operands _ _ _).1, (composeSignals_keeps_operands _ _ _).2,
      rfl, ?_, ?_⟩⟩
  · simp [add, unwrapSignals]
  · simp [add, unwrapSignals]
  · simp [sub, unwrapSignals]
  · simp [sub, unwrapSignals]
  · simp [mul, unwrapSignals]
  · simp [mul, unwrapSignals]
  · simp [div, unwrapSignals]
  · simp [div, unwrapSignals]
  · simp [rem, unwrapSignals]
  · simp [rem, unwrapSignals]

/-- The stripping loop never turns a nonzero coefficient into zero. -/
theorem stripZerosAux_ne_zero :
    ∀ (fuel d : Nat) (s : Int), d ≠ 0 → (stripZerosAux fuel d s).1 ≠ 0 := by
  intro fuel
  induction fuel with
  | zero => intro d s hd; simpa [stripZerosAux] using hd
  | succ fuel ih =>
      intro d s hd
      by_cases h : d ≠ 0 ∧ d % 10 = 0
      · rw [stripZerosAux, if_pos h]
        refine ih _ _ ?_
        have hdvd : 10 ∣ d := Nat.dvd_of_mod_eq_zero h.2
        have h10 : 10 ≤ d := Nat.le_of_dvd (Nat.pos_of_ne_zero h.1) hdvd
        have : 0 < d / 10 := Nat.div_pos h10 (by norm_num)
        omega
      · rw [stripZerosAux, if_neg h]
        exact hd

/-- The stripping loop only moves trailing zeros: the input coefficient
is the output times a power of ten, and the scale drops by exactly that
exponent. -/
theorem stripZerosAux_decomp :
    ∀ (fuel d : Nat) (s : Int), ∃ t : Nat,
      d = (stripZerosAux fuel d s).1 * 10 ^ t
      ∧ (stripZerosAux fuel d s).2 = s - t := by
  intro fuel
  induction fuel with
  | zero => intro d s; exact ⟨0, by simp [stripZerosAux]⟩
  | succ fuel ih =>
      intro d s
      by_cases h : d ≠ 0 ∧ d % 10 = 0
      · rw [stripZerosAux, if_pos h]
        obtain ⟨t, h1, h2⟩ := ih (d / 10) (s - 1)
        refine ⟨t + 1, ?_, ?_⟩
        · have hdvd : 10 ∣ d := Nat.dvd_of_mod_eq_zero h.2
          calc d = d / 10 * 10 := (Nat.div_mul_cancel hdvd).symm
            _ = (stripZerosAux fuel (d / 10) (s - 1)).1 * 10 ^ t * 10 := by rw [← h1]
            _ = (stripZerosAux fuel (d / 10) (s - 1)).1 * 10 ^ (t + 1) := by ring
        · rw [h2]
          push_cast
          ring
      · rw [stripZerosAux, if_neg h]
        exact ⟨0, by simp⟩

/-- Given enough fuel (the coefficient itself is enough), the stripping
loop ends on a coefficient that is zero or carries no trailing zero. -/
theorem stripZerosAux_done :
    ∀ (fuel d : Nat) (s : Int), d ≤ fuel →
      ¬((stripZerosAux fuel d s).1 ≠ 0 ∧ (stripZerosAux fuel d s).1 % 10 = 0) := by
  intro fuel
  induction fuel with
  | zero =>
      intro d s hd
      have : d = 0 := by omega
      simp [stripZerosAux, this]
  | succ fuel ih =>
      intro d s hd
      by_cases h : d ≠ 0 ∧ d % 10 = 0
      · rw [stripZerosAux, if_pos h]
        refine ih _ _ ?_
        have : d / 10 < d := Nat.div_lt_self (Nat.pos_of_ne_zero h.1) (by norm_num)
        omega
      · rw [stripZerosAux, if_neg h]
        exact h

/-- A coefficient with no trailing zero is a fixed point of the
stripping loop at any fuel. -/
theorem stripZerosAux_fixpoint (r : Nat) (hr : ¬(r ≠ 0 ∧ r % 10 = 0)) :
    ∀ (fuel : Nat) (s : Int), stripZerosAux fuel r s = (r, s) := by
  intro fuel s
  cases fuel with
  | zero => rfl
  | succ fuel => rw [stripZerosAux, if_neg hr]

/-- `normalize` never touches the flags. -/
theorem normalize_flags (v : Decimal) : (Decimal.normalize v).flags = v.flags := by
  unfold Decimal.normalize
  split <;> rfl

/-- `normalize` is idempotent on every decimal value. -/
theorem normalize_idem (v : Decimal) :
    Decimal.normalize (Decimal.normalize v) = Decimal.normalize v := by
  obtain ⟨d, s, f⟩ := v
  by_cases hg : (Decimal.is_nan ⟨d, s, f⟩ || Decimal.is_infinite ⟨d, s, f⟩
      || Decimal.is_zero ⟨d, s, f⟩) = true
  · unfold Decimal.normalize
    rw [if_pos hg, if_pos hg]
  · have hsplit : (f.nan = false ∧ f.infinity = false) ∧ d ≠ 0 := by
      simpa [Decimal.is_nan, Decimal.is_infinite, Decimal.is_zero,
        Flags.is_nan, Flags.is_infinity] using hg
    have hd : d ≠ 0 := hsplit.2
    unfold Decimal.normalize
    rw [if_neg hg]
    have hr := stripZerosAux_ne_zero d d s hd
    have hdone := stripZerosAux_done d d s (le_refl d)
    have hg2 : ¬(Decimal.is_nan ⟨(stripZeros d s).1, (stripZeros d s).2, f⟩
        || Decimal.is_infinite ⟨(stripZeros d s).1, (stripZeros d s).2, f⟩
        || Decimal.is_zero ⟨(stripZeros d s).1, (stripZeros d s).2, f⟩) = true := by
      simp only [Decimal.is_nan, Decimal.is_infinite, Decimal.is_zero,
        Flags.is_nan, Flags.is_infinity, hsplit.1.1, hsplit.1.2]
      simpa [stripZeros] using hr
    rw [if_neg hg2]
    have hfix : stripZeros (stripZeros d s).1 (stripZeros d s).2
        = ((stripZeros d s).1, (stripZeros d s).2) := by
      unfold stripZeros
      exact stripZerosAux_fixpoint _ (by simpa [stripZeros] using hdone) _ _
    simp only [stripZeros] at hfix ⊢
    rw [hfix]

/-- The comparator is reflexive: every value compares Equal to itself. -/
theorem cmp_self (v : Decimal) : Decimal.cmp v v = Ordering.eq := by
  obtain ⟨d, s, ⟨ng, nn, ii, sg⟩⟩ := v
  cases nn <;> cases ii <;> cases ng <;> by_cases hz : d = 0 <;>
    simp [Decimal.cmp, natCmp, Decimal.is_zero, Flags.is_nan, Flags.is_infinity,
      Flags.is_negative, hz, Ordering.swap]

/-- A value whose coefficient is the other's stripped of `t` trailing
zeros (with the scale lowered by `t`) compares Equal to it. -/
theorem cmp_aligned (r t : Nat) (s : Int) (f : Flags) (hf1 : f.nan = false)
    (hf2 : f.infinity = false) (hr : r ≠ 0) :
    Decimal.cmp ⟨r, s - t, f⟩ ⟨r * 10 ^ t, s, f⟩ = Ordering.eq := by
  have hle : s - (t : Int) ≤ s := sub_le_self s (Int.natCast_nonneg t)
  have hmax : max (s - (t : Int)) s = s := max_eq_right hle
  have hts1 : (s - (s - (t : Int))).toNat = t := by
    rw [sub_sub_cancel]
    exact Int.toNat_natCast t
  have hts2 : (s - s).toNat = 0 := by simp
  simp only [Decimal.cmp, Flags.is_nan, Flags.is_infinity, Flags.is_negative,
    Decimal.is_zero, hf1, hf2, hmax, hts1, hts2, Bool.false_and, Bool.and_false,
    if_false, bne_self_eq_false, pow_zero, mul_one]
  have hrz : (decide (r = 0) && decide (r * 10 ^ t = 0)) = false := by
    simp [hr]
  rw [if_neg (by simp [hr] : ¬(decide (r = 0) && decide (r * 10 ^ t = 0)) = true)]
  simp [natCmp, Ordering.swap]

/-- `normalize` preserves the numeric value: the normalized form
compares Equal to the original. -/
theorem cmp_normalize_eq (v : Decimal) : Decimal.cmp (Decimal.normalize v) v = Ordering.eq := by
  obtain ⟨d, s, f⟩ := v
  by_cases hg : (Decimal.is_nan ⟨d, s, f⟩ || Decimal.is_infinite ⟨d, s, f⟩
      || Decimal.is_zero ⟨d, s, f⟩) = true
  · rw [show Decimal.normalize ⟨d, s, f⟩ = ⟨d, s, f⟩ by unfold Decimal.normalize; rw [if_pos hg]]
    exact cmp_self _
  · have hd : d ≠ 0 := by
      intro h0
      exact hg (by simp [Decimal.is_zero, h0])
    have hf1 : f.nan = false := by
      cases h : f.nan
      · rfl
      · exact absurd (by simp [Decimal.is_nan, Flags.is_nan, h]) hg
    have hf2 : f.infinity = false := by
      cases h : f.infinity
      · rfl
      · exact absurd (by simp [Decimal.is_infinite, Flags.is_infinity, h]) hg
    unfold Decimal.normalize
    rw [if_neg hg]
    obtain ⟨t, h1, h2⟩ := stripZerosAux_decomp d d s
    have hr := stripZerosAux_ne_zero d d s hd
    simp only [stripZeros]
    rw [show (⟨d, s, f⟩ : Decimal) = ⟨(stripZerosAux d d s).1 * 10 ^ t, s, f⟩ by rw [← h1],
      h2]
    exact cmp_aligned _ t s f hf1 hf2 hr

/-- C8: with the default context, `normalized` is idempotent bit-for-bit
(in the option monad accounting for the debug-build trap) and never
changes the numeric value: a successful normalization compares Equal to
the original. -/
theorem c8_normalized_idempotent_value_preserving (v : Decimal) (dbg : Bool) :
    ((normalized dbg v Context.default).bind (fun w => normalized dbg w Context.default)
        = normalized dbg v Context.default)
    ∧ (∀ w, normalized dbg v Context.default = some w → Decimal.cmp w v = Ordering.eq) := by
  constructor
  · unfold Decimal.normalized unwrapSignals
    by_cases h : (dbg && Context.trapsAny Context.default (Decimal.normalize v).flags.signals) = true
    · rw [if_pos h]
      rfl
    · rw [if_neg h]
      show (if (dbg && Context.trapsAny Context.default
          (Decimal.normalize (Decimal.normalize v)).flags.signals) = true then none
        else some (Decimal.normalize (Decimal.normalize v))) = some (Decimal.normalize v)
      rw [normalize_idem]
      exact if_neg h
  · intro w hw
    unfold Decimal.normalized unwrapSignals at hw
    by_cases h : (dbg && Context.trapsAny Context.default (Decimal.normalize v).flags.signals) = true
    · rw [if_pos h] at hw
      exact absurd hw (by simp)
    · rw [if_neg h] at hw
      obtain rfl : Decimal.normalize v = w := Option.some_injective _ hw
      exact cmp_normalize_eq v

/-- Witness for C8: the spec's normalization example, in a debug build
with the default context. -/
theorem c8_normalized_idempotent_value_preserving_witness :
    Decimal.cmp ⟨12345, -2, Flags.empty⟩ ⟨1234500, 0, Flags.empty⟩ = Ordering.eq :=
  (c8_normalized_idempotent_value_preserving ⟨1234500, 0, Flags.empty⟩ true).2
    ⟨12345, -2, Flags.empty⟩ (by decide)

end Fastnum
